import Mathlib

/-!
Verification of the video-clipper pipeline (files `video_clipper.py`,
`gdrive_utils.py`, `telegram_utils.py`) against its natural-language
specification.

The Python source is shallowly embedded: pure helpers become Lean
functions, stateful stage functions become pure functions from an
explicit state (the `state.json` checkpoint record) plus oracles for the
file system and the external encoder to a new state together with a
trace of the external calls they perform.  All definitions are
translated from the source.
-/

namespace VideoClipper

/-! ## String helpers

`pad2`/`pad3` model Python's `f"{n:02d}"` / `f"{n:03d}"` zero padding
(for widths the claims exercise; larger numbers print unpadded, as in
Python). -/

def pad2 (n : Nat) : String :=
  if n < 10 then "0" ++ toString n else toString n

def pad3 (n : Nat) : String :=
  if n < 10 then "00" ++ toString n
  else if n < 100 then "0" ++ toString n
  else toString n

/-- `os.path.basename`: the component after the last `/`. -/
def basename (p : String) : String :=
  ((p.splitOn "/").getLast?).getD p

/-- The root part of `os.path.splitext`: drop the extension after the
last dot (keeping the whole name when there is no dot or the only dot
leads the name, as Python does for names like `.bashrc`). -/
def splitextRoot (s : String) : String :=
  let parts := s.splitOn "."
  if parts.length ≤ 1 then s
  else
    let root := String.intercalate "." parts.dropLast
    if root = "" then s else root

/-! ## `_slugify` (video_clipper.py lines 72-77)

    text = text.lower().strip()
    text = re.sub(r"[^\w\s-]", "", text)
    text = re.sub(r"[\s_-]+", "_", text)
    return text[:max_len].rstrip("_")

Characters are treated at ASCII granularity (`\w` = alphanumeric or
underscore), which the pipeline's inputs satisfy. -/

def isWordChar (c : Char) : Bool := c.isAlphanum || c = '_'

def isSepChar (c : Char) : Bool := c.isWhitespace || c = '_' || c = '-'

/-- Collapse every maximal run of whitespace/underscore/hyphen into a
single underscore (`re.sub(r"[\s_-]+", "_", ·)`).  The boolean records
whether we are inside such a run. -/
def collapseSeps : Bool → List Char → List Char
  | _, [] => []
  | inRun, c :: rest =>
    if isSepChar c then
      if inRun then collapseSeps true rest
      else '_' :: collapseSeps true rest
    else c :: collapseSeps false rest

/-- `str.rstrip("_")`. -/
def rstripUnderscore (l : List Char) : List Char :=
  (l.reverse.dropWhile (fun c => c = '_')).reverse

def slugify (text : String) (max_len : Nat := 40) : String :=
  let lowered := (text.toLower.trim).toList
  let kept := lowered.filter (fun c => isWordChar c || c.isWhitespace || c = '-')
  let collapsed := collapseSeps false kept
  String.mk (rstripUnderscore (collapsed.take max_len))

/-! ## Timestamp formatting (video_clipper.py lines 80-97) -/

/-- `_format_time` — `divmod` on ints is floor-based, matching
`Int.ediv`/`Int.emod` for the positive divisors used here. -/
def format_time (seconds : Int) : String :=
  let total := seconds
  let h := total.ediv 3600
  let remainder := total.emod 3600
  let m := remainder.ediv 60
  let s := remainder.emod 60
  if h > 0 then toString h ++ ":" ++ pad2 m.toNat ++ ":" ++ pad2 s.toNat
  else toString m ++ ":" ++ pad2 s.toNat

/-- Python float `%`: `x - y * floor (x / y)`. -/
def pymod (x y : ℚ) : ℚ := x - y * ⌊x / y⌋

/-- Python `int()` truncates toward zero. -/
def pyint (q : ℚ) : Int := if 0 ≤ q then ⌊q⌋ else -⌊-q⌋

/-- `_format_srt_time` — `HH:MM:SS,mmm`.  The source computes on a
float; the claims' inputs (quarter seconds) are exactly representable,
so rationals model them without rounding error.  `//` is floor
division, `%` is `pymod`, `int()` is `pyint`. -/
def format_srt_time (seconds : ℚ) : String :=
  let h := pyint ((⌊seconds / 3600⌋ : ℤ) : ℚ)
  let m := pyint ((⌊pymod seconds 3600 / 60⌋ : ℤ) : ℚ)
  let s := pyint (pymod seconds 60)
  let ms := pyint (pymod seconds 1 * 1000)
  pad2 h.toNat ++ ":" ++ pad2 m.toNat ++ ":" ++ pad2 s.toNat ++ "," ++ pad3 ms.toNat

/-! ## `extract_file_id` (gdrive_utils.py lines 63-83)

`re.search` finds the leftmost position where the pattern matches; the
`+` quantifier over the character class `[a-zA-Z0-9_-]` requires at
least one character and, being greedy with nothing after it, captures
the maximal run. -/

/-- The character class `[a-zA-Z0-9_-]`. -/
def idChar (c : Char) : Bool :=
  ('a' ≤ c && c ≤ 'z') || ('A' ≤ c && c ≤ 'Z') || ('0' ≤ c && c ≤ '9')
    || c = '_' || c = '-'

/-- `re.search(r"/d/([a-zA-Z0-9_-]+)", url)`: at each position, try to
match `/d/` followed by a nonempty run of `idChar`s; return the first
(leftmost) capture, scanning onward one character at a time on failure. -/
def searchD : List Char → Option (List Char)
  | [] => none
  | '/' :: 'd' :: '/' :: t =>
    let cap := t.takeWhile idChar
    if cap.isEmpty then searchD ('d' :: '/' :: t) else some cap
  | _ :: rest => searchD rest

/-- `re.search(r"[?&]id=([a-zA-Z0-9_-]+)", url)`. -/
def searchId : List Char → Option (List Char)
  | [] => none
  | c :: rest =>
    if c = '?' || c = '&' then
      match rest with
      | 'i' :: 'd' :: '=' :: t =>
        let cap := t.takeWhile idChar
        if cap.isEmpty then searchId rest else some cap
      | _ => searchId rest
    else searchId rest

/-- `extract_file_id` — `ValueError` becomes `Except.error`. -/
def extract_file_id (url : String) : Except String String :=
  match searchD url.toList with
  | some cap => .ok (String.mk cap)
  | none =>
    match searchId url.toList with
    | some cap => .ok (String.mk cap)
    | none =>
      if ¬ url.toList.contains '/' ∧ url.length > 10 then .ok url
      else .error ("Cannot extract file ID from: " ++ url)

/-! ## Data model

`PState` is the `state.json` checkpoint record.  Absent keys are
modelled by the defaults (`""`, `none`, `0`); `step` is the stage enum
stored as the literal strings the source writes. -/

structure PState where
  step : String := ""
  drive_url : Option String := none
  drive_file_id : Option String := none
  drive_parent_id : Option String := none
  video_name : String := ""
  video_path : String := ""
  local_source : Option String := none
  srt_path : String := ""
  transcript_path : String := ""
  audio_path : String := ""
  word_count : Nat := 0
  utterance_count : Nat := 0
  clips_cut : Nat := 0
  clips_folder_id : String := ""
  clips_uploaded : Nat := 0
  deriving Repr, DecidableEq

/-- A clip plan entry from `*_clips.json`.  `title` and
`virality_score` are optional keys (`clip.get(...)` in the source);
times are modelled as integer seconds, which the claims exercise. -/
structure Clip where
  id : Nat
  start_time : Int
  end_time : Int
  title : Option String := none
  virality_score : Option Int := none
  crop_x : Option Int := none
  deriving Repr, DecidableEq

/-- One external call performed by a stage function.  Telegram
messaging sends are tracked separately (the relay queue), matching the
claims, which only constrain download / transcription / encoder /
upload calls and checkpoint saves. -/
inductive Ev where
  | download (fileId : String)
  | transcribe (audioPath : String)
  | encode (outPath : String)
  | upload (path : String)
  | createFolder (name : String) (folderId : String)
  | setPublic (folderId : String)
  | save (st : PState)
  deriving Repr, DecidableEq

/-- Oracle for the external encoder/prober (`ffmpeg`/`ffprobe`): the
exit status of each horizontal, vertical and Telegram-copy invocation,
and the probed stream height (`none` when the probe output does not
parse as an integer). -/
structure Encoder where
  horizExit : Clip → Int
  vertExit : Clip → Int
  tgExit : String → Int
  probeHeight : String → Option Int

/-- The pipeline-order rank of a checkpoint `step` value; unknown
strings (including the absent-key default `""`) rank 0, like a fresh
checkpoint. -/
def stageRank (s : String) : Nat :=
  if s = "downloaded" then 1
  else if s = "transcribed" then 2
  else if s = "clips_identified" then 3
  else if s = "cut" then 4
  else if s = "uploaded" then 5
  else 0

/-- The checkpoints saved in a call trace. -/
def savesOf (evs : List Ev) : List PState :=
  evs.filterMap (fun e => match e with | .save st => some st | _ => none)

/-! ## `_save_state` (video_clipper.py lines 120-124) as file operations

    with open(state_path, "w") as f:
        json.dump(state, f, indent=2)

`open(path, "w")` truncates the file immediately; `json.dump` then
writes the serialized record.  A partially executed save is a prefix of
this operation list applied to the previous on-disk content. -/

inductive FileOp where
  | truncate
  | write (s : String)
  deriving Repr, DecidableEq

/-- A serialization of the checkpoint record `json.dump` writes.  Only
its shape matters for the claims: it renders the whole record (every
field, an overwrite rather than a merge) and is never empty. -/
def serialize_state (st : PState) : String :=
  "\x7b \"step\": \"" ++ st.step ++ "\", \"video_name\": \"" ++ st.video_name
    ++ "\", \"video_path\": \"" ++ st.video_path
    ++ "\", \"clips_cut\": " ++ toString st.clips_cut
    ++ ", \"clips_uploaded\": " ++ toString st.clips_uploaded ++ " \x7d"

def save_state_ops (st : PState) : List FileOp :=
  [FileOp.truncate, FileOp.write (serialize_state st)]

/-- Disk content of `state.json`: `none` when the file does not exist. -/
def applyFileOp (cur : Option String) : FileOp → Option String
  | .truncate => some ""
  | .write s =>
    match cur with
    | none => none
    | some c => some (c ++ s)

def runFileOps (init : Option String) (ops : List FileOp) : Option String :=
  ops.foldl applyFileOp init

/-! ## `_cut_clip` (video_clipper.py lines 384-457)

The file system is an oracle `fs : String → Bool` (does this path
exist at the start of the stage), the encoder an `Encoder` oracle.
`_cut_clip` returns the `(horizontal, vertical)` path pair exactly as
the source does, plus the encoder invocations it performed. -/

/-- `f"clip_{clip_id:02d}_{title_slug}"` with
`title_slug = _slugify(clip.get("title", f"clip_{clip_id:02d}"))`. -/
def clip_base_name (c : Clip) : String :=
  "clip_" ++ pad2 c.id ++ "_" ++ slugify (c.title.getD ("clip_" ++ pad2 c.id))

def horiz_path (output_dir : String) (c : Clip) : String :=
  output_dir ++ "/" ++ clip_base_name c ++ ".mp4"

def vert_path (output_dir : String) (c : Clip) : String :=
  output_dir ++ "/" ++ clip_base_name c ++ "_vertical.mp4"

structure CutPair where
  h : Option String
  v : Option String
  evs : List Ev
  deriving Repr, DecidableEq

def cut_clip (fs : String → Bool) (enc : Encoder) (output_dir : String)
    (c : Clip) (skip_vertical : Bool) : CutPair :=
  let horiz := horiz_path output_dir c
  let vert := vert_path output_dir c
  -- horizontal cut: skipped when the target exists, else one encoder run
  if fs horiz then
    -- "Horizontal already exists, skipping"
    if skip_vertical then ⟨some horiz, none, []⟩
    else if fs vert then ⟨some horiz, some vert, []⟩
    else if enc.vertExit c = 0 then ⟨some horiz, some vert, [.encode vert]⟩
    else ⟨some horiz, none, [.encode vert]⟩
  else if enc.horizExit c ≠ 0 then ⟨none, none, [.encode horiz]⟩
  else if skip_vertical then ⟨some horiz, none, [.encode horiz]⟩
  else if fs vert then ⟨some horiz, some vert, [.encode horiz]⟩
  else if enc.vertExit c = 0 then ⟨some horiz, some vert, [.encode horiz, .encode vert]⟩
  else ⟨some horiz, none, [.encode horiz, .encode vert]⟩

/-- A clip counts as cut exactly when `_cut_clip` returns a horizontal
path: the target already existed or the horizontal encode exited 0. -/
def clipSuccess (fs : String → Bool) (enc : Encoder) (output_dir : String)
    (c : Clip) : Bool :=
  fs (horiz_path output_dir c) || enc.horizExit c == 0

/-! ## `_make_telegram_copy` (video_clipper.py lines 460-496) -/

structure TgCopy where
  /-- The returned path. -/
  path : String
  /-- The target path `tg_dir/basename(clip_path)`. -/
  outPath : String
  /-- `-vf` filter passed to the encoder, when invoked. -/
  vf : Option String
  /-- Whether an encoder process was invoked. -/
  invoked : Bool
  deriving Repr, DecidableEq

def make_telegram_copy (fs : String → Bool) (enc : Encoder)
    (clip_path tg_dir : String) : TgCopy :=
  let out_path := tg_dir ++ "/" ++ basename clip_path
  if fs out_path then ⟨out_path, out_path, none, false⟩
  else
    -- probe source height; `int()` failure means assume large (9999)
    let src_height : Int := (enc.probeHeight clip_path).getD 9999
    let vf : Option String := if src_height > 720 then some "scale=-2:720" else none
    if enc.tgExit clip_path ≠ 0 then ⟨clip_path, out_path, vf, true⟩
    else ⟨out_path, out_path, vf, true⟩

/-- The file system after `_make_telegram_copy`: the target exists
additionally when the encode was invoked and exited 0. -/
def tgFsAfter (fs : String → Bool) (enc : Encoder) (clip_path tg_dir : String) :
    String → Bool :=
  fun p =>
    fs p || (decide (p = (make_telegram_copy fs enc clip_path tg_dir).outPath)
             && (make_telegram_copy fs enc clip_path tg_dir).invoked
             && enc.tgExit clip_path == 0)

/-! ## `step_cut_all` (video_clipper.py lines 545-647)

The `ThreadPoolExecutor`/`as_completed` loop handles clip results in
whatever order the encodes finish; that order is an explicit
`completionOrder` parameter (any permutation of the plan).  The loop
body is `processClip`, folded over the completion order. -/

/-- The caption built in the `as_completed` loop body (`cut_count` is
the running success count at the time this clip's result is handled). -/
def clip_caption (cut_count total : Nat) (c : Clip) : String :=
  let title := c.title.getD ("Clip " ++ toString c.id)
  let score := match c.virality_score with
    | some v => toString v
    | none => "?"
  "<b>Clip " ++ toString cut_count ++ "/" ++ toString total ++ "</b>\n"
    ++ "#" ++ toString c.id ++ " " ++ title ++ "\n"
    ++ format_time c.start_time ++ "–" ++ format_time c.end_time
    ++ " (" ++ toString (c.end_time - c.start_time) ++ "s) | " ++ score ++ "/10"

/-- Accumulator of the `as_completed` loop: the running success count,
the failed-id list, the per-clip reported results (clip id, success) in
handling order, the Telegram relay queue contents in enqueue order, and
the encoder invocations. -/
structure CutAcc where
  cutCount : Nat := 0
  errors : List Nat := []
  report : List (Nat × Bool) := []
  tgQueue : List (String × String) := []
  evs : List Ev := []
  deriving Repr, DecidableEq

/-- One iteration of the `as_completed` loop. -/
def processClip (fs : String → Bool) (enc : Encoder)
    (output_dir tg_dir : String) (skip_vertical : Bool) (total : Nat)
    (acc : CutAcc) (c : Clip) : CutAcc :=
  let pair := cut_clip fs enc output_dir c skip_vertical
  match pair.h with
  | some hp =>
    let cc := acc.cutCount + 1
    let caption := clip_caption cc total c
    let tgH := make_telegram_copy fs enc hp tg_dir
    let tgHEvs : List Ev := if tgH.invoked then [.encode tgH.outPath] else []
    let (vQueue, vEvs) :=
      match pair.v with
      | some vp =>
        let tgV := make_telegram_copy fs enc vp tg_dir
        ([(tgV.path, caption ++ "\n(vertical 9:16)")],
         if tgV.invoked then [Ev.encode tgV.outPath] else [])
      | none => ([], [])
    { cutCount := cc
      errors := acc.errors
      report := acc.report ++ [(c.id, true)]
      tgQueue := acc.tgQueue ++ [(tgH.path, caption)] ++ vQueue
      evs := acc.evs ++ pair.evs ++ tgHEvs ++ vEvs }
  | none =>
    { acc with
      errors := acc.errors ++ [c.id]
      report := acc.report ++ [(c.id, false)]
      evs := acc.evs ++ pair.evs }

/-- `step_cut_all`.  Parameters: `fs`/`enc` are the file-system and
encoder oracles, `clips` the loaded plan (`_load_clips`),
`completionOrder` the order in which `as_completed` yields the worker
results.  Returns the state the function returns, the loop accumulator,
and the external-call trace.  On an empty plan the source returns the
state before touching the checkpoint. -/
def step_cut_all (fs : String → Bool) (enc : Encoder) (work_dir : String)
    (state : PState) (clips completionOrder : List Clip)
    (skip_vertical : Bool) : PState × CutAcc × List Ev :=
  if clips.isEmpty then (state, {}, [])
  else
    let output_dir := work_dir ++ "/clips"
    let tg_dir := output_dir ++ "/telegram"
    let total := clips.length
    let acc := completionOrder.foldl
      (processClip fs enc output_dir tg_dir skip_vertical total) {}
    let st := { state with step := "cut", clips_cut := acc.cutCount }
    (st, acc, acc.evs ++ [Ev.save st])

/-! ## `step_download` (video_clipper.py lines 175-215)

Metadata lookups (`get_file_metadata`, `get_parent_folder`) happen
unconditionally before the skip check and are not in the claims'
external-call classes, so the trace records downloads and saves. -/

def downloadSkipSteps : List String :=
  ["downloaded", "transcribed", "clips_identified", "cut", "uploaded"]

def step_download (fs : String → Bool)
    (drive_url file_id : String) (parent_id : Option String)
    (video_name work_dir : String) (state : PState) : PState × List Ev :=
  let video_path := work_dir ++ "/" ++ video_name
  if state.step ∈ downloadSkipSteps ∧ fs state.video_path then
    -- "Already downloaded"
    (state, [])
  else
    let st := { state with
      step := "downloaded"
      drive_url := some drive_url
      drive_file_id := some file_id
      drive_parent_id := parent_id
      video_name := video_name
      video_path := video_path }
    (st, [Ev.download file_id, Ev.save st])

/-! ## `step_transcribe` (video_clipper.py lines 220-327)

External outcomes are oracle parameters: `ffmpegExit` (audio
extraction), `api_key` (`ASSEMBLYAI_API_KEY`), `transcriptError`
(`transcript.status == error` together with the error text), and the
resulting word/utterance counts.  `raise` becomes `Except.error`;
the trace covers the calls made before the raise. -/

def transcribeSkipSteps : List String :=
  ["transcribed", "clips_identified", "cut", "uploaded"]

def step_transcribe (fs : String → Bool) (ffmpegExit : Int) (api_key : String)
    (transcriptError : Option String) (word_count utterance_count : Nat)
    (work_dir : String) (state : PState) : Except String PState × List Ev :=
  if state.step ∈ transcribeSkipSteps then
    -- "Already transcribed"
    (.ok state, [])
  else
    let base_name := splitextRoot (basename state.video_path)
    let audio_path := work_dir ++ "/" ++ base_name ++ ".mp3"
    let extractEvs : List Ev := if fs audio_path then [] else [.encode audio_path]
    if ¬ fs audio_path ∧ ffmpegExit ≠ 0 then
      (.error "Audio extraction failed", extractEvs)
    else if api_key = "" then
      (.error "ASSEMBLYAI_API_KEY not set in .env", extractEvs)
    else
      match transcriptError with
      | some err => (.error ("Transcription failed: " ++ err),
                     extractEvs ++ [.transcribe audio_path])
      | none =>
        let srt_path := work_dir ++ "/" ++ base_name ++ ".srt"
        let md_path := work_dir ++ "/" ++ base_name ++ "_transcript.md"
        let uploadEvs : List Ev :=
          if state.drive_parent_id.isSome then [.upload srt_path, .upload md_path]
          else []
        let st := { state with
          step := "transcribed"
          srt_path := srt_path
          transcript_path := md_path
          audio_path := audio_path
          word_count := word_count
          utterance_count := utterance_count }
        (.ok st, extractEvs ++ [.transcribe audio_path] ++ uploadEvs ++ [.save st])

/-! ## `step_upload` (video_clipper.py lines 652-722)

`clip_files` is the sorted `.mp4` listing of `work_dir/clips` (the
`telegram/` subdirectory entry is excluded by the `isfile` filter);
`clips_json` the first `*_clips.json` found in `work_dir`;
`folder_id` the id `create_folder` returns (it deduplicates by
name within the parent, so re-runs get the same id). -/

def step_upload (clip_files : List String) (clips_json : Option String)
    (folder_id : String) (state : PState) : PState × List Ev :=
  let folder_name :=
    if state.drive_parent_id.isSome then "clips"
    else splitextRoot state.video_name ++ " – Clips"
  let createEvs : List Ev := [.createFolder folder_name folder_id]
  if clip_files.isEmpty then
    -- "No clip files to upload." — returns before any upload or save
    (state, createEvs)
  else
    let uploadEvs : List Ev := clip_files.map (fun f => .upload f)
    let jsonEvs : List Ev :=
      if h : clips_json.isSome then [.upload (clips_json.get h)]
      else []
    let st := { state with
      step := "uploaded"
      clips_folder_id := folder_id
      clips_uploaded := clip_files.length }
    (st, createEvs ++ uploadEvs ++ jsonEvs ++ [.setPublic folder_id, .save st])

/-! ## Notification relay (video_clipper.py lines 571-586, 630-633)

`tg_queue` is a thread-safe FIFO; cutting workers `put` items, the
single `_telegram_sender` thread repeatedly `get`s the head and calls
`send_video` before taking the next item.  A `RelayState` records the
serialized history of puts (`enqHistory`), the current queue contents,
and the sends the messaging sink has observed; `RelayStep` is one
scheduler step of either kind, in any interleaving. -/

structure RelayState where
  enqHistory : List (String × String)
  queue : List (String × String)
  sent : List (String × String)
  deriving Repr, DecidableEq

def relayInit : RelayState := ⟨[], [], []⟩

inductive RelayStep : RelayState → RelayState → Prop
  /-- A cutting worker enqueues `(path, caption)` (`tg_queue.put`). -/
  | put (i : String × String) (h q s : List (String × String)) :
      RelayStep ⟨h, q, s⟩ ⟨h ++ [i], q ++ [i], s⟩
  /-- The sender thread dequeues the head and the sink observes the
  send (`tg_queue.get()` then `send_video`). -/
  | send (i : String × String) (h q s : List (String × String)) :
      RelayStep ⟨h, i :: q, s⟩ ⟨h, q, s ++ [i]⟩

/-- Reachability from the empty relay by any interleaving of worker
puts and sender steps. -/
def RelayReachable (st : RelayState) : Prop :=
  Relation.ReflTransGen RelayStep relayInit st

/-! ## Helper lemmas about the cut engine -/

theorem cut_clip_h (fs : String → Bool) (enc : Encoder) (od : String)
    (c : Clip) (sv : Bool) :
    (cut_clip fs enc od c sv).h
      = if clipSuccess fs enc od c then some (horiz_path od c) else none := by
  unfold cut_clip clipSuccess
  by_cases h1 : fs (horiz_path od c) <;> by_cases h2 : enc.horizExit c = 0 <;>
    by_cases h3 : sv <;> by_cases h4 : fs (vert_path od c) <;>
    by_cases h5 : enc.vertExit c = 0 <;> simp [h1, h2, h3, h4, h5]

theorem processClip_cutCount (fs : String → Bool) (enc : Encoder)
    (od tg : String) (sv : Bool) (total : Nat) (a : CutAcc) (c : Clip) :
    (processClip fs enc od tg sv total a c).cutCount
      = a.cutCount + (if clipSuccess fs enc od c then 1 else 0) := by
  simp only [processClip]
  rw [cut_clip_h]
  by_cases hs : clipSuccess fs enc od c <;> simp [hs]

theorem processClip_errors (fs : String → Bool) (enc : Encoder)
    (od tg : String) (sv : Bool) (total : Nat) (a : CutAcc) (c : Clip) :
    (processClip fs enc od tg sv total a c).errors
      = a.errors ++ (if clipSuccess fs enc od c then [] else [c.id]) := by
  simp only [processClip]
  rw [cut_clip_h]
  by_cases hs : clipSuccess fs enc od c <;> simp [hs]

theorem processClip_report (fs : String → Bool) (enc : Encoder)
    (od tg : String) (sv : Bool) (total : Nat) (a : CutAcc) (c : Clip) :
    (processClip fs enc od tg sv total a c).report
      = a.report ++ [(c.id, clipSuccess fs enc od c)] := by
  simp only [processClip]
  rw [cut_clip_h]
  by_cases hs : clipSuccess fs enc od c <;> simp [hs]

/-- Closed form of the `as_completed` loop: the success count, the
failed-id list and the per-clip report of the fold, for any initial
accumulator. -/
theorem foldl_processClip_spec (fs : String → Bool) (enc : Encoder)
    (od tg : String) (sv : Bool) (total : Nat) (l : List Clip) (a : CutAcc) :
    (l.foldl (processClip fs enc od tg sv total) a).cutCount
        = a.cutCount + l.countP (clipSuccess fs enc od)
    ∧ (l.foldl (processClip fs enc od tg sv total) a).errors
        = a.errors ++ (l.filter (fun c => ! clipSuccess fs enc od c)).map (·.id)
    ∧ (l.foldl (processClip fs enc od tg sv total) a).report
        = a.report ++ l.map (fun c => (c.id, clipSuccess fs enc od c)) := by
  induction l generalizing a with
  | nil => simp
  | cons c rest ih =>
    obtain ⟨ih1, ih2, ih3⟩ := ih (processClip fs enc od tg sv total a c)
    refine ⟨?_, ?_, ?_⟩ <;>
      simp only [List.foldl_cons, ih1, ih2, ih3, processClip_cutCount,
        processClip_errors, processClip_report, List.countP_cons,
        List.filter_cons, List.map_cons] <;>
      by_cases hs : clipSuccess fs enc od c <;> simp [hs] <;> omega

/-! ## Helper lemmas about stage rank and saved checkpoints -/

theorem stageRank_le_five (s : String) : stageRank s ≤ 5 := by
  unfold stageRank
  split_ifs <;> omega

theorem stageRank_eq_zero_of_unknown (s : String)
    (h : s ∉ downloadSkipSteps) : stageRank s = 0 := by
  simp only [downloadSkipSteps, List.mem_cons, List.mem_singleton, not_or] at h
  unfold stageRank
  split_ifs <;> simp_all

theorem stageRank_le_one_of_not_transcribed (s : String)
    (h : s ∉ transcribeSkipSteps) : stageRank s ≤ 1 := by
  simp only [transcribeSkipSteps, List.mem_cons, List.mem_singleton, not_or] at h
  unfold stageRank
  split_ifs <;> simp_all

theorem stageRank_le_four_of_ne_uploaded (s : String)
    (h : s ≠ "uploaded") : stageRank s ≤ 4 := by
  unfold stageRank
  split_ifs <;> simp_all

theorem savesOf_append (l1 l2 : List Ev) :
    savesOf (l1 ++ l2) = savesOf l1 ++ savesOf l2 := by
  simp [savesOf]

theorem savesOf_cut_clip (fs : String → Bool) (enc : Encoder) (od : String)
    (c : Clip) (sv : Bool) : savesOf (cut_clip fs enc od c sv).evs = [] := by
  unfold cut_clip
  by_cases h1 : fs (horiz_path od c) <;> by_cases h2 : enc.horizExit c = 0 <;>
    by_cases h3 : sv <;> by_cases h4 : fs (vert_path od c) <;>
    by_cases h5 : enc.vertExit c = 0 <;> simp [h1, h2, h3, h4, h5, savesOf]

/-- The `as_completed` loop only performs encoder invocations: it never
saves a checkpoint. -/
theorem savesOf_processClip (fs : String → Bool) (enc : Encoder)
    (od tg : String) (sv : Bool) (total : Nat) (a : CutAcc) (c : Clip) :
    savesOf (processClip fs enc od tg sv total a c).evs = savesOf a.evs := by
  have hcut : ∀ e ∈ (cut_clip fs enc od c sv).evs,
      (match e with | Ev.save st => some st | _ => none) = (none : Option PState) := by
    have h := savesOf_cut_clip fs enc od c sv
    simpa [savesOf, List.filterMap_eq_nil_iff] using h
  simp only [processClip]
  cases hp : (cut_clip fs enc od c sv).h with
  | none => simp [savesOf_append, savesOf] <;> exact hcut
  | some hpath =>
    cases hv : (cut_clip fs enc od c sv).v with
    | none =>
      by_cases h1 : (make_telegram_copy fs enc hpath tg).invoked <;>
        simp [h1, savesOf_append, savesOf] <;> exact hcut
    | some vp =>
      by_cases h1 : (make_telegram_copy fs enc hpath tg).invoked <;>
        by_cases h2 : (make_telegram_copy fs enc vp tg).invoked <;>
        simp [h1, h2, savesOf_append, savesOf] <;> exact hcut

theorem savesOf_foldl_processClip (fs : String → Bool) (enc : Encoder)
    (od tg : String) (sv : Bool) (total : Nat) (l : List Clip) (a : CutAcc) :
    savesOf (l.foldl (processClip fs enc od tg sv total) a).evs
      = savesOf a.evs := by
  induction l generalizing a with
  | nil => rfl
  | cons c rest ih => rw [List.foldl_cons, ih, savesOf_processClip]

/-- Injectivity on members from a `Nodup` id map. -/
theorem eq_of_mem_of_nodup_map_id {l : List Clip}
    (h : (l.map Clip.id).Nodup) {a b : Clip} (ha : a ∈ l) (hb : b ∈ l)
    (hid : a.id = b.id) : a = b :=
  List.inj_on_of_nodup_map h ha hb hid

/-! ## Claim theorems -/

/-- C7: `_format_time 3725 = "1:02:05"`, `_format_time 90 = "1:30"`,
and `_format_srt_time 3725.25 = "01:02:05,250"` — the hours field of
`_format_time` is omitted when zero, minutes/seconds are two-digit
padded after a leading unpadded field, and the SRT format zero-pads all
fields with three-digit comma-separated milliseconds. -/
theorem timestamp_formatting_C7 :
    format_time 3725 = "1:02:05" ∧ format_time 90 = "1:30"
      ∧ format_srt_time (3725.25 : ℚ) = "01:02:05,250" := by
  refine ⟨by decide, by decide, ?_⟩
  have h1 : (⌊(3725.25 : ℚ) / 3600⌋ : ℤ) = 1 := by norm_num [Int.floor_eq_iff]
  have h2 : pymod (3725.25 : ℚ) 3600 = 125.25 := by
    norm_num [pymod, Int.floor_eq_iff]
  have h3 : (⌊(125.25 : ℚ) / 60⌋ : ℤ) = 2 := by norm_num [Int.floor_eq_iff]
  have h4 : pymod (3725.25 : ℚ) 60 = 5.25 := by norm_num [pymod, Int.floor_eq_iff]
  have h5 : pymod (3725.25 : ℚ) 1 = 0.25 := by norm_num [pymod, Int.floor_eq_iff]
  have h6 : pyint ((5.25 : ℚ)) = 5 := by norm_num [pyint, Int.floor_eq_iff]
  have h7 : ((0.25 : ℚ) * 1000) = 250 := by norm_num
  have h8 : pyint ((250 : ℚ)) = 250 := by norm_num [pyint]
  have h9 : pyint (((1 : ℤ) : ℚ)) = 1 := by norm_num [pyint]
  have h10 : pyint (((2 : ℤ) : ℚ)) = 2 := by norm_num [pyint]
  simp only [format_srt_time, h1, h2, h3, h4, h5, h6, h7, h8, h9, h10]
  decide

/-- C8: `extract_file_id` returns the `/d/<id>` capture when that
pattern matches, else the `?id=`/`&id=` capture when that pattern
matches, else the input itself exactly when the input contains no `/`
and has length strictly greater than 10, and raises `ValueError` for
all remaining inputs. -/
theorem extract_file_id_cases_C8 (url : String) :
    (∀ cap, searchD url.toList = some cap →
        extract_file_id url = .ok (String.mk cap))
    ∧ (searchD url.toList = none → ∀ cap, searchId url.toList = some cap →
        extract_file_id url = .ok (String.mk cap))
    ∧ (searchD url.toList = none → searchId url.toList = none →
        url.toList.contains '/' = false → url.length > 10 →
        extract_file_id url = .ok url)
    ∧ (searchD url.toList = none → searchId url.toList = none →
        (url.toList.contains '/' = true ∨ ¬ url.length > 10) →
        extract_file_id url = .error ("Cannot extract file ID from: " ++ url)) := by
  refine ⟨?_, ?_, ?_, ?_⟩
  · intro cap h
    unfold extract_file_id
    rw [h]
  · intro hd cap h
    unfold extract_file_id
    rw [hd, h]
  · intro hd hi hs hl
    unfold extract_file_id
    rw [hd, hi]
    have hs' : '/' ∉ url.data := by simpa using hs
    simp [hs', hl]
  · intro hd hi hrest
    unfold extract_file_id
    rw [hd, hi]
    rcases hrest with hs | hl
    · have hs' : '/' ∈ url.data := by simpa using hs
      simp [hs']
    · simp [hl]

/-- Witness for C8: a `/d/` URL, an `?id=` URL, a raw over-10-character
id, and two `ValueError` inputs. -/
theorem extract_file_id_cases_C8_witness :
    extract_file_id "https://drive.google.com/file/d/A1b2-C3_d4/view"
        = .ok (String.mk "A1b2-C3_d4".toList)
    ∧ extract_file_id "https://drive.google.com/open?id=XY-99_z"
        = .ok (String.mk "XY-99_z".toList)
    ∧ extract_file_id "rawfileid123" = .ok "rawfileid123"
    ∧ extract_file_id "short" = .error ("Cannot extract file ID from: " ++ "short")
    ∧ extract_file_id "a/b" = .error ("Cannot extract file ID from: " ++ "a/b") :=
  ⟨(extract_file_id_cases_C8 _).1 _ (by decide),
   (extract_file_id_cases_C8 _).2.1 (by decide) _ (by decide),
   (extract_file_id_cases_C8 _).2.2.1 (by decide) (by decide) (by decide) (by decide),
   (extract_file_id_cases_C8 _).2.2.2 (by decide) (by decide) (Or.inr (by decide)),
   (extract_file_id_cases_C8 _).2.2.2 (by decide) (by decide) (Or.inl (by decide))⟩

/-- C10: `_make_telegram_copy` always returns a path to an existing
video file — the cached copy when one exists (without invoking the
encoder); when the probe yields no integer height the 720p downscale is
applied; and when the downscale encode exits nonzero the original
full-resolution clip path is returned. -/
theorem make_telegram_copy_total_C10 (fs : String → Bool) (enc : Encoder)
    (clip_path tg_dir : String) (hclip : fs clip_path = true) :
    (fs (make_telegram_copy fs enc clip_path tg_dir).outPath = true →
      (make_telegram_copy fs enc clip_path tg_dir).path
          = (make_telegram_copy fs enc clip_path tg_dir).outPath
      ∧ (make_telegram_copy fs enc clip_path tg_dir).invoked = false)
    ∧ (fs (make_telegram_copy fs enc clip_path tg_dir).outPath = false →
        enc.probeHeight clip_path = none →
        (make_telegram_copy fs enc clip_path tg_dir).vf = some "scale=-2:720")
    ∧ (fs (make_telegram_copy fs enc clip_path tg_dir).outPath = false →
        enc.tgExit clip_path ≠ 0 →
        (make_telegram_copy fs enc clip_path tg_dir).path = clip_path)
    ∧ tgFsAfter fs enc clip_path tg_dir
        (make_telegram_copy fs enc clip_path tg_dir).path = true := by
  by_cases hcache : fs (tg_dir ++ "/" ++ basename clip_path) = true <;>
    by_cases hexit : enc.tgExit clip_path = 0
  all_goals refine ⟨?_, ?_, ?_, ?_⟩
  all_goals intros
  all_goals simp_all [make_telegram_copy, tgFsAfter]

/-- Witness for C10: a clip whose Telegram copy is not cached, whose
probe fails, and whose downscale encode fails — the original clip path
comes back and exists. -/
theorem make_telegram_copy_total_C10_witness :
    ((fun p => p == "clips/clip_01_a.mp4") : String → Bool) "clips/clip_01_a.mp4" = true
    ∧ (make_telegram_copy (fun p => p == "clips/clip_01_a.mp4")
        ⟨fun _ => 0, fun _ => 0, fun _ => 1, fun _ => none⟩
        "clips/clip_01_a.mp4" "clips/telegram").vf = some "scale=-2:720"
    ∧ (make_telegram_copy (fun p => p == "clips/clip_01_a.mp4")
        ⟨fun _ => 0, fun _ => 0, fun _ => 1, fun _ => none⟩
        "clips/clip_01_a.mp4" "clips/telegram").path = "clips/clip_01_a.mp4"
    ∧ tgFsAfter (fun p => p == "clips/clip_01_a.mp4")
        ⟨fun _ => 0, fun _ => 0, fun _ => 1, fun _ => none⟩
        "clips/clip_01_a.mp4" "clips/telegram"
        (make_telegram_copy (fun p => p == "clips/clip_01_a.mp4")
          ⟨fun _ => 0, fun _ => 0, fun _ => 1, fun _ => none⟩
          "clips/clip_01_a.mp4" "clips/telegram").path = true :=
  ⟨by decide,
   (make_telegram_copy_total_C10 _ _ _ _ (by decide)).2.1 (by decide) rfl,
   (make_telegram_copy_total_C10 _ _ _ _ (by decide)).2.2.1 (by decide) (by decide),
   (make_telegram_copy_total_C10 _ _ _ _ (by decide)).2.2.2⟩

/-- C4 counterexample: `_save_state` opens `state.json` with mode
`"w"`, which truncates before `json.dump` writes — interrupting the
save after the open but before the dump leaves an empty file that is
neither the prior record nor the new one, so a partially executed save
CAN leave a truncated record on disk. -/
theorem save_state_truncation_C4_cex :
    runFileOps (some (serialize_state { step := "transcribed" }))
        ((save_state_ops { step := "cut" }).take 1) = some ""
    ∧ runFileOps (some (serialize_state { step := "transcribed" }))
        ((save_state_ops { step := "cut" }).take 1)
      ≠ some (serialize_state { step := "transcribed" })
    ∧ runFileOps (some (serialize_state { step := "transcribed" }))
        ((save_state_ops { step := "cut" }).take 1)
      ≠ runFileOps (some (serialize_state { step := "transcribed" }))
        (save_state_ops { step := "cut" }) := by
  decide

/-- C4 (amended): `_save_state` persists the entire checkpoint record
as a full overwrite of `state.json` (not a merge — the final content is
the new serialization regardless of the prior content), and an
interruption before the save begins leaves the previously persisted
record intact; but the save is a plain truncate-then-write, not atomic:
the truncation prefix of a partially executed save leaves an empty
file, and the full record is never the empty string, so the truncated
state is distinguishable from any complete record. -/
theorem save_state_overwrite_C4 (old : Option String) (st : PState) :
    runFileOps old (save_state_ops st) = some (serialize_state st)
    ∧ runFileOps old ((save_state_ops st).take 0) = old
    ∧ runFileOps old ((save_state_ops st).take 1) = some ""
    ∧ serialize_state st ≠ "" := by
  refine ⟨rfl, rfl, rfl, ?_⟩
  intro heq
  have hlen := congrArg String.length heq
  simp only [serialize_state, String.length_append] at hlen
  have h11 : String.length "\x7b \"step\": \"" = 11 := rfl
  have h0 : String.length "" = 0 := rfl
  rw [h11, h0] at hlen
  omega

/-! ## C5: relay FIFO -/

/-- Invariant of the relay: at every reachable state, the sends already
observed followed by the still-queued items are exactly the enqueue
history, in order. -/
theorem relay_invariant (st : RelayState) (h : RelayReachable st) :
    st.sent ++ st.queue = st.enqHistory := by
  induction h with
  | refl => rfl
  | tail _ hstep ih =>
    cases hstep with
    | put i h q s =>
      simp only at ih ⊢
      rw [← List.append_assoc, ih]
    | send i h q s =>
      simp only at ih ⊢
      rw [← ih]
      simp

/-- C5: the messaging sink observes sends in exactly enqueue order —
at every reachable relay state the observed send sequence is a prefix
of the enqueue history, and once the queue is drained (as
`step_cut_all` forces via `tg_queue.join()` before finishing) the send
sequence equals the enqueue history exactly, regardless of the
interleaving of worker puts and sender steps. -/
theorem relay_fifo_C5 (st : RelayState) (h : RelayReachable st) :
    st.sent <+: st.enqHistory ∧ (st.queue = [] → st.sent = st.enqHistory) := by
  have inv := relay_invariant st h
  exact ⟨⟨st.queue, inv⟩, fun hq => by simpa [hq] using inv⟩

/-- Witness for C5: three clips [A, B, C] enqueued (in that order,
whatever worker order produced it) and fully drained — the sink
observed exactly [A, B, C]. -/
theorem relay_fifo_C5_witness :
    (⟨[("a.mp4", "A"), ("b.mp4", "B"), ("c.mp4", "C")], [],
      [("a.mp4", "A"), ("b.mp4", "B"), ("c.mp4", "C")]⟩ : RelayState).sent
      = (⟨[("a.mp4", "A"), ("b.mp4", "B"), ("c.mp4", "C")], [],
          [("a.mp4", "A"), ("b.mp4", "B"), ("c.mp4", "C")]⟩ : RelayState).enqHistory :=
  (relay_fifo_C5 _
    (Relation.ReflTransGen.head (RelayStep.put ("a.mp4", "A") [] [] [])
      (Relation.ReflTransGen.head (RelayStep.put ("b.mp4", "B") [("a.mp4", "A")] [("a.mp4", "A")] [])
        (Relation.ReflTransGen.head
          (RelayStep.send ("a.mp4", "A") [("a.mp4", "A"), ("b.mp4", "B")] [("b.mp4", "B")] [])
          (Relation.ReflTransGen.head
            (RelayStep.put ("c.mp4", "C") [("a.mp4", "A"), ("b.mp4", "B")] [("b.mp4", "B")]
              [("a.mp4", "A")])
            (Relation.ReflTransGen.head
              (RelayStep.send ("b.mp4", "B") [("a.mp4", "A"), ("b.mp4", "B"), ("c.mp4", "C")]
                [("c.mp4", "C")] [("a.mp4", "A")])
              (Relation.ReflTransGen.single
                (RelayStep.send ("c.mp4", "C") [("a.mp4", "A"), ("b.mp4", "B"), ("c.mp4", "C")]
                  [] [("a.mp4", "A"), ("b.mp4", "B")])))))))).2 rfl

/-! ## C9 and C1: the cut stage under per-clip encoder failures -/

/-- The loop accumulator of `step_cut_all` on a nonempty plan. -/
theorem step_cut_all_acc (fs : String → Bool) (enc : Encoder)
    (wd : String) (state : PState) (clips order : List Clip) (sv : Bool)
    (h : clips ≠ []) :
    (step_cut_all fs enc wd state clips order sv).2.1
      = order.foldl (processClip fs enc (wd ++ "/clips")
          (wd ++ "/clips" ++ "/telegram") sv clips.length) {} := by
  unfold step_cut_all
  rw [if_neg (by simpa [List.isEmpty_iff] using h)]

/-- The state `step_cut_all` returns (and saves) on a nonempty plan. -/
theorem step_cut_all_state (fs : String → Bool) (enc : Encoder)
    (wd : String) (state : PState) (clips order : List Clip) (sv : Bool)
    (h : clips ≠ []) :
    (step_cut_all fs enc wd state clips order sv).1
      = { state with
          step := "cut"
          clips_cut := (step_cut_all fs enc wd state clips order sv).2.1.cutCount } := by
  unfold step_cut_all
  rw [if_neg (by simpa [List.isEmpty_iff] using h)]

/-- The trace of `step_cut_all` on a nonempty plan: the loop trace
followed by the checkpoint save of the returned state. -/
theorem step_cut_all_evs (fs : String → Bool) (enc : Encoder)
    (wd : String) (state : PState) (clips order : List Clip) (sv : Bool)
    (h : clips ≠ []) :
    (step_cut_all fs enc wd state clips order sv).2.2
      = (step_cut_all fs enc wd state clips order sv).2.1.evs
        ++ [Ev.save (step_cut_all fs enc wd state clips order sv).1] := by
  unfold step_cut_all
  rw [if_neg (by simpa [List.isEmpty_iff] using h)]

/-- C9 (implicit): a clip's success is decided solely by the
horizontal pass — when the horizontal encode succeeds but the vertical
encode exits nonzero, `_cut_clip` returns the horizontal path paired
with `None`, and `step_cut_all` still counts the clip as a success (its
id is not recorded in the failed-id list and the success count is
positive). -/
theorem horizontal_decides_success_C9 (fs : String → Bool) (enc : Encoder)
    (wd : String) (state : PState) (clips order : List Clip) (c : Clip)
    (hperm : order.Perm clips) (hmem : c ∈ clips)
    (hnodup : (clips.map Clip.id).Nodup)
    (hfh : fs (horiz_path (wd ++ "/clips") c) = false)
    (hfv : fs (vert_path (wd ++ "/clips") c) = false)
    (hh : enc.horizExit c = 0) (hv : enc.vertExit c ≠ 0) :
    cut_clip fs enc (wd ++ "/clips") c false
        = ⟨some (horiz_path (wd ++ "/clips") c), none,
           [.encode (horiz_path (wd ++ "/clips") c),
            .encode (vert_path (wd ++ "/clips") c)]⟩
    ∧ c.id ∉ (step_cut_all fs enc wd state clips order false).2.1.errors
    ∧ 0 < (step_cut_all fs enc wd state clips order false).2.1.cutCount := by
  have hne : clips ≠ [] := by
    intro hnil
    rw [hnil] at hmem
    exact absurd hmem (List.not_mem_nil c)
  have hsucc : clipSuccess fs enc (wd ++ "/clips") c = true := by
    simp [clipSuccess, hfh, hh]
  have hspec := foldl_processClip_spec fs enc (wd ++ "/clips")
    (wd ++ "/clips" ++ "/telegram") false clips.length order {}
  refine ⟨?_, ?_, ?_⟩
  · unfold cut_clip
    simp [hfh, hfv, hh, hv]
  · rw [step_cut_all_acc fs enc wd state clips order false hne]
    rw [hspec.2.1]
    intro hin
    simp only [List.mem_append, List.mem_map, List.mem_filter] at hin
    rcases hin with hin | hin
    · simp at hin
    · obtain ⟨d, ⟨hdo, hdf⟩, hdid⟩ := hin
      have hdc : d ∈ clips := hperm.mem_iff.mp hdo
      have hdceq : d = c := eq_of_mem_of_nodup_map_id hnodup hdc hmem hdid
      rw [hdceq, hsucc] at hdf
      simp at hdf
  · rw [step_cut_all_acc fs enc wd state clips order false hne]
    rw [hspec.1]
    have hco : c ∈ order := hperm.mem_iff.mpr hmem
    have hpos : 0 < order.countP (clipSuccess fs enc (wd ++ "/clips")) :=
      List.countP_pos_iff.mpr ⟨c, hco, hsucc⟩
    simp only [CutAcc.cutCount]
    omega

/-- C1: for a plan in which exactly one clip `bad` fails both encoder
passes (every other clip's encodes exit 0), `step_cut_all` — under any
completion order — records exactly `bad.id` in the failed-id list,
still handles every clip (the report covers the whole plan), counts
`N - 1` successes, never raises (it is a total function of the
oracles), and still advances the checkpoint stage to `"cut"` and saves
it. -/
theorem cut_batch_isolation_C1 (fs : String → Bool) (enc : Encoder)
    (wd : String) (state : PState) (clips order : List Clip) (bad : Clip)
    (hperm : order.Perm clips)
    (hfs : ∀ p, fs p = false)
    (hmem : bad ∈ clips) (hcount : clips.count bad = 1)
    (hbadH : enc.horizExit bad ≠ 0) (hbadV : enc.vertExit bad ≠ 0)
    (hothersH : ∀ c ∈ clips, c ≠ bad → enc.horizExit c = 0)
    (hothersV : ∀ c ∈ clips, c ≠ bad → enc.vertExit c = 0) :
    (step_cut_all fs enc wd state clips order false).2.1.cutCount
        = clips.length - 1
    ∧ (step_cut_all fs enc wd state clips order false).2.1.errors = [bad.id]
    ∧ (step_cut_all fs enc wd state clips order false).2.1.report.length
        = clips.length
    ∧ (step_cut_all fs enc wd state clips order false).1.step = "cut"
    ∧ (step_cut_all fs enc wd state clips order false).1.clips_cut
        = clips.length - 1
    ∧ Ev.save (step_cut_all fs enc wd state clips order false).1
        ∈ (step_cut_all fs enc wd state clips order false).2.2 := by
  have hne : clips ≠ [] := by
    intro hnil
    rw [hnil] at hmem
    exact absurd hmem (List.not_mem_nil bad)
  have hsucc : ∀ c ∈ order,
      clipSuccess fs enc (wd ++ "/clips") c = ! (c == bad) := by
    intro c hc
    have hcc : c ∈ clips := hperm.mem_iff.mp hc
    by_cases hcb : c = bad
    · subst hcb
      simp [clipSuccess, hfs, hbadH]
    · simp [clipSuccess, hfs, hothersH c hcc hcb, hcb]
  have hfail : order.filter
      (fun c => ! clipSuccess fs enc (wd ++ "/clips") c) = [bad] := by
    have h1 : order.filter (fun c => ! clipSuccess fs enc (wd ++ "/clips") c)
        = order.filter (fun c => c == bad) := by
      apply List.filter_congr
      intro c hc
      rw [hsucc c hc, Bool.not_not]
    rw [h1, List.filter_beq, hperm.count_eq, hcount, List.replicate_one]
  have hcnt : order.countP (clipSuccess fs enc (wd ++ "/clips"))
      = clips.length - 1 := by
    have h1 := List.length_eq_countP_add_countP
      (p := clipSuccess fs enc (wd ++ "/clips")) order
    have hconv : (fun a => decide ¬(clipSuccess fs enc (wd ++ "/clips") a = true))
        = (fun a => ! clipSuccess fs enc (wd ++ "/clips") a) := by
      funext a
      by_cases h : clipSuccess fs enc (wd ++ "/clips") a <;> simp [h]
    simp only [hconv] at h1
    have h2 : order.countP
        (fun c => ! clipSuccess fs enc (wd ++ "/clips") c) = 1 := by
      rw [List.countP_eq_length_filter, hfail]
      rfl
    have h3 : order.length = clips.length := hperm.length_eq
    omega
  have hspec := foldl_processClip_spec fs enc (wd ++ "/clips")
    (wd ++ "/clips" ++ "/telegram") false clips.length order {}
  have hacc := step_cut_all_acc fs enc wd state clips order false hne
  have hstate := step_cut_all_state fs enc wd state clips order false hne
  have hevs := step_cut_all_evs fs enc wd state clips order false hne
  refine ⟨?_, ?_, ?_, ?_, ?_, ?_⟩
  · rw [hacc, hspec.1, hcnt]
    simp
  · rw [hacc, hspec.2.1, hfail]
    simp
  · rw [hacc, hspec.2.2]
    simp [hperm.length_eq]
  · rw [hstate]
  · rw [hstate]
    show (step_cut_all fs enc wd state clips order false).2.1.cutCount
        = clips.length - 1
    rw [hacc, hspec.1, hcnt]
    simp
  · rw [hevs]
    exact List.mem_append_right _ (List.mem_singleton.mpr rfl)

/-! ## Sample oracles and clips for witnesses and counterexamples -/

/-- A fresh run: no output file exists yet. -/
def fsNone : String → Bool := fun _ => false

/-- A fully populated disk: every artifact already exists. -/
def fsAll : String → Bool := fun _ => true

/-- An encoder whose every invocation succeeds; probe yields no height. -/
def encOk : Encoder := ⟨fun _ => 0, fun _ => 0, fun _ => 0, fun _ => none⟩

/-- An encoder that fails both passes exactly for clip id 2. -/
def encBad2 : Encoder :=
  ⟨fun c => if c.id = 2 then 1 else 0, fun c => if c.id = 2 then 1 else 0,
   fun _ => 0, fun _ => none⟩

/-- An encoder whose horizontal pass succeeds and vertical pass fails. -/
def encVertFail : Encoder := ⟨fun _ => 0, fun _ => 1, fun _ => 0, fun _ => none⟩

def clipA : Clip := ⟨1, 0, 10, some "Alpha", some 7, none⟩

def clipB : Clip := ⟨2, 20, 30, some "Beta", some 5, none⟩

def clipC : Clip := ⟨3, 40, 50, none, none, none⟩

/-- Witness for C9: a two-clip plan processed in reversed completion
order; clip 1's vertical encode fails but it is still counted cut. -/
theorem horizontal_decides_success_C9_witness :
    cut_clip fsNone encVertFail ("wd" ++ "/clips") clipA false
        = ⟨some (horiz_path ("wd" ++ "/clips") clipA), none,
           [.encode (horiz_path ("wd" ++ "/clips") clipA),
            .encode (vert_path ("wd" ++ "/clips") clipA)]⟩
    ∧ clipA.id ∉ (step_cut_all fsNone encVertFail "wd" {}
        [clipA, clipB] [clipB, clipA] false).2.1.errors
    ∧ 0 < (step_cut_all fsNone encVertFail "wd" {}
        [clipA, clipB] [clipB, clipA] false).2.1.cutCount :=
  horizontal_decides_success_C9 fsNone encVertFail "wd" {} [clipA, clipB]
    [clipB, clipA] clipA (List.Perm.swap clipA clipB []) (by decide)
    (by decide) rfl rfl rfl (by decide)

/-- Witness for C1: plan `[1, 2, 3]` where clip 2 fails both passes,
completion order `[3, 2, 1]` — two successes, failed-id list `[2]`,
stage advanced to `"cut"` and saved. -/
theorem cut_batch_isolation_C1_witness :
    (step_cut_all fsNone encBad2 "wd" {} [clipA, clipB, clipC]
        [clipC, clipB, clipA] false).2.1.cutCount = 2
    ∧ (step_cut_all fsNone encBad2 "wd" {} [clipA, clipB, clipC]
        [clipC, clipB, clipA] false).2.1.errors = [2]
    ∧ (step_cut_all fsNone encBad2 "wd" {} [clipA, clipB, clipC]
        [clipC, clipB, clipA] false).1.step = "cut"
    ∧ Ev.save (step_cut_all fsNone encBad2 "wd" {} [clipA, clipB, clipC]
        [clipC, clipB, clipA] false).1
      ∈ (step_cut_all fsNone encBad2 "wd" {} [clipA, clipB, clipC]
        [clipC, clipB, clipA] false).2.2 := by
  have h := cut_batch_isolation_C1 fsNone encBad2 "wd" {} [clipA, clipB, clipC]
    [clipC, clipB, clipA] clipB (by decide) (fun _ => rfl) (by decide) (by decide)
    (by decide) (by decide) (by decide) (by decide)
  exact ⟨h.1, h.2.1, h.2.2.2.1, h.2.2.2.2.2⟩

/-- C6 counterexample: with the same two-clip plan (both clips succeed)
the per-clip report depends on the completion order `as_completed`
yields — a legitimate completion order produces the report in the order
`[2, 1]`, not in clip id order, so the reported output order is not
deterministic for a given plan. -/
theorem cut_report_order_C6_cex :
    ([clipB, clipA] : List Clip).Perm [clipA, clipB]
    ∧ (step_cut_all fsNone encOk "wd" {} [clipA, clipB]
        [clipB, clipA] false).2.1.report = [(2, true), (1, true)]
    ∧ (step_cut_all fsNone encOk "wd" {} [clipA, clipB]
        [clipA, clipB] false).2.1.report = [(1, true), (2, true)]
    ∧ (step_cut_all fsNone encOk "wd" {} [clipA, clipB]
        [clipB, clipA] false).2.1.report
      ≠ (step_cut_all fsNone encOk "wd" {} [clipA, clipB]
        [clipA, clipB] false).2.1.report :=
  ⟨List.Perm.swap clipA clipB [], by decide, by decide, by decide⟩

/-- C6 (amended): `step_cut_all` reports per-clip results in completion
order, not clip id order; what IS deterministic for a given plan is the
success count and the failed-id list up to order (any two completion
orders of the same plan yield the same count and permuted failed-id
lists). -/
theorem cut_report_completion_order_C6 (fs : String → Bool) (enc : Encoder)
    (wd : String) (state : PState) (clips o1 o2 : List Clip) (sv : Bool)
    (h1 : o1.Perm clips) (h2 : o2.Perm clips) :
    (step_cut_all fs enc wd state clips o1 sv).2.1.report
        = o1.map (fun c => (c.id, clipSuccess fs enc (wd ++ "/clips") c))
    ∧ (step_cut_all fs enc wd state clips o1 sv).2.1.cutCount
        = (step_cut_all fs enc wd state clips o2 sv).2.1.cutCount
    ∧ ((step_cut_all fs enc wd state clips o1 sv).2.1.errors).Perm
        ((step_cut_all fs enc wd state clips o2 sv).2.1.errors) := by
  by_cases hnil : clips = []
  · subst hnil
    have e1 : o1 = [] := h1.eq_nil
    have e2 : o2 = [] := h2.eq_nil
    subst e1
    subst e2
    simp [step_cut_all]
  · have hacc1 := step_cut_all_acc fs enc wd state clips o1 sv hnil
    have hacc2 := step_cut_all_acc fs enc wd state clips o2 sv hnil
    have hs1 := foldl_processClip_spec fs enc (wd ++ "/clips")
      (wd ++ "/clips" ++ "/telegram") sv clips.length o1 {}
    have hs2 := foldl_processClip_spec fs enc (wd ++ "/clips")
      (wd ++ "/clips" ++ "/telegram") sv clips.length o2 {}
    have hp : o1.Perm o2 := h1.trans h2.symm
    refine ⟨?_, ?_, ?_⟩
    · rw [hacc1, hs1.2.2]
      simp
    · rw [hacc1, hacc2, hs1.1, hs2.1,
        hp.countP_eq (clipSuccess fs enc (wd ++ "/clips"))]
    · rw [hacc1, hacc2, hs1.2.1, hs2.2.1]
      simp only [List.nil_append]
      exact ((hp.filter _).map _)

/-- Witness for C6 (amended): the reversed completion order of the
two-clip plan reports in completion order and agrees with the id-order
run on the count. -/
theorem cut_report_completion_order_C6_witness :
    (step_cut_all fsNone encOk "wd" {} [clipA, clipB]
        [clipB, clipA] false).2.1.report
      = [clipB, clipA].map
          (fun c => (c.id, clipSuccess fsNone encOk ("wd" ++ "/clips") c))
    ∧ (step_cut_all fsNone encOk "wd" {} [clipA, clipB]
        [clipB, clipA] false).2.1.cutCount
      = (step_cut_all fsNone encOk "wd" {} [clipA, clipB]
        [clipA, clipB] false).2.1.cutCount :=
  ⟨(cut_report_completion_order_C6 fsNone encOk "wd" {} [clipA, clipB]
      [clipB, clipA] [clipA, clipB] false (List.Perm.swap clipA clipB [])
      (List.Perm.refl _)).1,
   (cut_report_completion_order_C6 fsNone encOk "wd" {} [clipA, clipB]
      [clipB, clipA] [clipA, clipB] false (List.Perm.swap clipA clipB [])
      (List.Perm.refl _)).2.1⟩

/-- C3 counterexample: `step_cut_all` unconditionally saves stage
`"cut"`; invoking the cut stage (e.g. `--cut-only`) on a checkpoint
already at `"uploaded"` saves a checkpoint whose stage is strictly
earlier in the pipeline order than the loaded one — the persisted stage
regresses. -/
theorem stage_regression_C3_cex :
    ({ step := "uploaded" } : PState).step = "uploaded"
    ∧ (step_cut_all fsNone encOk "wd" { step := "uploaded" }
        [clipA] [clipA] false).1.step = "cut"
    ∧ stageRank "cut" < stageRank "uploaded"
    ∧ Ev.save (step_cut_all fsNone encOk "wd" { step := "uploaded" }
        [clipA] [clipA] false).1
      ∈ (step_cut_all fsNone encOk "wd" { step := "uploaded" }
        [clipA] [clipA] false).2.2 := by
  refine ⟨rfl, by decide, by decide, by decide⟩

/-- Every checkpoint `step_transcribe` saves carries stage
`"transcribed"`, and it only saves at all when the loaded stage was
outside the skip list. -/
theorem step_transcribe_saves (fs : String → Bool) (ffmpegExit : Int)
    (api_key : String) (transcriptError : Option String)
    (word_count utterance_count : Nat) (work_dir : String) (state : PState)
    (st' : PState)
    (hst' : st' ∈ savesOf (step_transcribe fs ffmpegExit api_key
      transcriptError word_count utterance_count work_dir state).2) :
    st'.step = "transcribed" ∧ state.step ∉ transcribeSkipSteps := by
  unfold step_transcribe at hst'
  by_cases hskip : state.step ∈ transcribeSkipSteps
  · rw [if_pos hskip] at hst'
    simp [savesOf] at hst'
  · rw [if_neg hskip] at hst'
    dsimp only at hst'
    rcases transcriptError with _ | err <;>
      split_ifs at hst' <;>
      simp [savesOf] at hst' <;>
      exact ⟨by rw [hst'], hskip⟩

/-- C3 (amended): the persisted checkpoint stage never regresses below
the loaded stage for ingest, transcribe and publish, and for the cut
stage whenever the loaded stage is not `"uploaded"` (with the loaded
video file present on disk, which re-invocation with no artifact
deletion guarantees); the one regression is `step_cut_all`, which
always saves stage `"cut"` and therefore regresses a checkpoint already
at `"uploaded"`. -/
theorem stage_monotonicity_C3 (fs : String → Bool) (enc : Encoder)
    (drive_url file_id : String) (parent_id : Option String)
    (video_name work_dir : String)
    (ffmpegExit : Int) (api_key : String) (transcriptError : Option String)
    (word_count utterance_count : Nat)
    (clips order : List Clip) (sv : Bool)
    (clip_files : List String) (clips_json : Option String) (folder_id : String)
    (state : PState)
    (hfsv : fs state.video_path = true)
    (hnu : state.step ≠ "uploaded") :
    (∀ st' ∈ savesOf (step_download fs drive_url file_id parent_id
        video_name work_dir state).2,
      stageRank state.step ≤ stageRank st'.step)
    ∧ (∀ st' ∈ savesOf (step_transcribe fs ffmpegExit api_key transcriptError
        word_count utterance_count work_dir state).2,
      stageRank state.step ≤ stageRank st'.step)
    ∧ (∀ st' ∈ savesOf (step_cut_all fs enc work_dir state clips order sv).2.2,
      stageRank state.step ≤ stageRank st'.step)
    ∧ (∀ st' ∈ savesOf (step_upload clip_files clips_json folder_id state).2,
      stageRank state.step ≤ stageRank st'.step) := by
  refine ⟨?_, ?_, ?_, ?_⟩
  · -- step_download: skipped, or the loaded stage is outside the skip
    -- list and so ranks 0
    intro st' hst'
    by_cases hskip : state.step ∈ downloadSkipSteps
    · unfold step_download at hst'
      rw [if_pos ⟨hskip, hfsv⟩] at hst'
      simp [savesOf] at hst'
    · unfold step_download at hst'
      rw [if_neg (fun hc => hskip hc.1)] at hst'
      dsimp only at hst'
      simp [savesOf] at hst'
      subst hst'
      rw [stageRank_eq_zero_of_unknown state.step hskip]
      exact Nat.zero_le _
  · -- step_transcribe: any saved checkpoint has stage "transcribed"
    -- and the loaded stage ranked at most 1
    intro st' hst'
    obtain ⟨hstep, hskip⟩ := step_transcribe_saves fs ffmpegExit api_key
      transcriptError word_count utterance_count work_dir state st' hst'
    rw [hstep]
    have h1 := stageRank_le_one_of_not_transcribed state.step hskip
    have h2 : stageRank "transcribed" = 2 := by decide
    omega
  · -- step_cut_all: the only save is the returned state, which has
    -- stage "cut", ranking at least every non-"uploaded" stage
    intro st' hst'
    by_cases hnil : clips = []
    · subst hnil
      simp [step_cut_all, savesOf] at hst'
    · rw [step_cut_all_evs fs enc work_dir state clips order sv hnil,
        savesOf_append, step_cut_all_acc fs enc work_dir state clips order sv hnil,
        savesOf_foldl_processClip] at hst'
      simp [savesOf] at hst'
      subst hst'
      rw [step_cut_all_state fs enc work_dir state clips order sv hnil]
      show stageRank state.step ≤ stageRank "cut"
      have h1 := stageRank_le_four_of_ne_uploaded state.step hnu
      have h2 : stageRank "cut" = 4 := by decide
      omega
  · -- step_upload: either returns before any save, or saves
    -- "uploaded", the maximal stage
    intro st' hst'
    have h5 := stageRank_le_five state.step
    have h2 : stageRank "uploaded" = 5 := by decide
    unfold step_upload at hst'
    dsimp only at hst'
    split_ifs at hst' <;> simp [savesOf] at hst' <;>
      (rw [hst']; show stageRank state.step ≤ stageRank "uploaded"; omega)

/-- Witness for C3 (amended): re-running publish on a checkpoint at
stage `"cut"` saves a checkpoint whose stage does not regress. -/
theorem stage_monotonicity_C3_witness :
    stageRank ({ step := "cut", video_path := "v.mp4" } : PState).step
      ≤ stageRank (step_upload ["clip_01_alpha.mp4"] none "FID"
          { step := "cut", video_path := "v.mp4" }).1.step :=
  (stage_monotonicity_C3 fsAll encOk "u" "f" none "vn" "wd" 0 "key" none 0 0
      [] [] false ["clip_01_alpha.mp4"] none "FID"
      { step := "cut", video_path := "v.mp4" } rfl (by decide)).2.2.2
    _ (by decide)

/-! ## C2: idempotence of re-invocation -/

/-- One `as_completed` iteration when every artifact of the clip — the
horizontal and vertical cuts and their Telegram copies — already exists
on disk: no encoder invocation happens and the clip counts as cut. -/
theorem processClip_cached (fs : String → Bool) (enc : Encoder)
    (od tg : String) (total : Nat) (a : CutAcc) (c : Clip)
    (hh : fs (horiz_path od c) = true) (hv : fs (vert_path od c) = true)
    (hth : fs (tg ++ "/" ++ basename (horiz_path od c)) = true)
    (htv : fs (tg ++ "/" ++ basename (vert_path od c)) = true) :
    (processClip fs enc od tg false total a c).evs = a.evs
    ∧ (processClip fs enc od tg false total a c).cutCount = a.cutCount + 1 := by
  have hpair : cut_clip fs enc od c false
      = ⟨some (horiz_path od c), some (vert_path od c), []⟩ := by
    unfold cut_clip
    simp [hh, hv]
  have htgH : make_telegram_copy fs enc (horiz_path od c) tg
      = ⟨tg ++ "/" ++ basename (horiz_path od c),
         tg ++ "/" ++ basename (horiz_path od c), none, false⟩ := by
    unfold make_telegram_copy
    simp [hth]
  have htgV : make_telegram_copy fs enc (vert_path od c) tg
      = ⟨tg ++ "/" ++ basename (vert_path od c),
         tg ++ "/" ++ basename (vert_path od c), none, false⟩ := by
    unfold make_telegram_copy
    simp [htv]
  constructor <;> simp [processClip, hpair, htgH, htgV]

/-- The whole `as_completed` loop under fully cached artifacts: no
external calls, and the success count is the plan size. -/
theorem foldl_processClip_cached (fs : String → Bool) (enc : Encoder)
    (od tg : String) (total : Nat) (l : List Clip) (a : CutAcc) :
    (∀ c ∈ l, fs (horiz_path od c) = true ∧ fs (vert_path od c) = true
      ∧ fs (tg ++ "/" ++ basename (horiz_path od c)) = true
      ∧ fs (tg ++ "/" ++ basename (vert_path od c)) = true) →
    (l.foldl (processClip fs enc od tg false total) a).evs = a.evs
    ∧ (l.foldl (processClip fs enc od tg false total) a).cutCount
        = a.cutCount + l.length := by
  induction l generalizing a with
  | nil =>
    intro _
    simp
  | cons c rest ih =>
    intro hall
    obtain ⟨h1, h2, h3, h4⟩ := hall c (List.mem_cons_self c rest)
    have hstep := processClip_cached fs enc od tg total a c h1 h2 h3 h4
    have ihr := ih (processClip fs enc od tg false total a c)
      (fun d hd => hall d (List.mem_cons_of_mem c hd))
    rw [List.foldl_cons]
    refine ⟨?_, ?_⟩
    · rw [ihr.1, hstep.1]
    · rw [ihr.2, hstep.2, List.length_cons]
      omega

/-- C2 counterexample: `step_upload` has no skip check at all — on a
checkpoint already at stage `"uploaded"` (produced by a first publish
of the same clip file) a second invocation uploads the same artifact
again, so invoking publish twice with identical inputs and no artifact
deletion does perform a duplicate external upload call. -/
theorem upload_not_idempotent_C2_cex :
    Ev.upload "clip_01_alpha.mp4"
      ∈ (step_upload ["clip_01_alpha.mp4"] (some "x_clips.json") "FID"
          { step := "cut", video_path := "v.mp4", clips_cut := 1 }).2
    ∧ (step_upload ["clip_01_alpha.mp4"] (some "x_clips.json") "FID"
        { step := "cut", video_path := "v.mp4", clips_cut := 1 }).1.step
      = "uploaded"
    ∧ Ev.upload "clip_01_alpha.mp4"
      ∈ (step_upload ["clip_01_alpha.mp4"] (some "x_clips.json") "FID"
          (step_upload ["clip_01_alpha.mp4"] (some "x_clips.json") "FID"
            { step := "cut", video_path := "v.mp4", clips_cut := 1 }).1).2 := by
  refine ⟨by decide, by decide, by decide⟩

/-- C2 (amended): ingest, transcribe and cut are idempotent — a second
invocation with identical inputs and intact artifacts performs no
download, transcription or encoder call and leaves the checkpoint
unchanged (ingest checks the checkpoint stage AND the video file's
existence; transcribe checks only the checkpoint stage; cut re-checks
per-file existence and re-saves the identical checkpoint) — but
publish is NOT idempotent: it re-uploads every clip file on each
invocation (its checkpoint is nevertheless unchanged on the second
call). -/
theorem stage_idempotence_C2 (fs : String → Bool) (enc : Encoder)
    (drive_url file_id : String) (parent_id : Option String)
    (video_name work_dir : String)
    (ffmpegExit : Int) (api_key : String) (transcriptError : Option String)
    (word_count utterance_count : Nat)
    (clips order : List Clip)
    (clip_files : List String) (clips_json : Option String) (folder_id : String)
    (state : PState) :
    (state.step ∈ downloadSkipSteps → fs state.video_path = true →
      step_download fs drive_url file_id parent_id video_name work_dir state
        = (state, []))
    ∧ (state.step ∈ transcribeSkipSteps →
      step_transcribe fs ffmpegExit api_key transcriptError word_count
        utterance_count work_dir state = (.ok state, []))
    ∧ ((∀ c ∈ order,
          fs (horiz_path (work_dir ++ "/clips") c) = true
          ∧ fs (vert_path (work_dir ++ "/clips") c) = true
          ∧ fs (work_dir ++ "/clips" ++ "/telegram" ++ "/"
              ++ basename (horiz_path (work_dir ++ "/clips") c)) = true
          ∧ fs (work_dir ++ "/clips" ++ "/telegram" ++ "/"
              ++ basename (vert_path (work_dir ++ "/clips") c)) = true) →
      state.step = "cut" → state.clips_cut = order.length →
      (step_cut_all fs enc work_dir state clips order false).1 = state
      ∧ ∀ e ∈ (step_cut_all fs enc work_dir state clips order false).2.2,
          e = Ev.save state)
    ∧ (state.step = "uploaded" → state.clips_folder_id = folder_id →
      state.clips_uploaded = clip_files.length →
      (step_upload clip_files clips_json folder_id state).1 = state) := by
  refine ⟨?_, ?_, ?_, ?_⟩
  · intro h1 h2
    unfold step_download
    rw [if_pos ⟨h1, h2⟩]
  · intro h1
    unfold step_transcribe
    rw [if_pos h1]
  · intro hall hstep hcc
    by_cases hnil : clips = []
    · subst hnil
      exact ⟨rfl, by simp [step_cut_all]⟩
    · obtain ⟨hevs, hcnt⟩ := foldl_processClip_cached fs enc
        (work_dir ++ "/clips") (work_dir ++ "/clips" ++ "/telegram")
        clips.length order {} hall
      have hacc := step_cut_all_acc fs enc work_dir state clips order false hnil
      have hstate := step_cut_all_state fs enc work_dir state clips order false hnil
      have hevs2 := step_cut_all_evs fs enc work_dir state clips order false hnil
      have hcount : (step_cut_all fs enc work_dir state clips order false).2.1.cutCount
          = order.length := by
        rw [hacc, hcnt]
        simp
      have hst : (step_cut_all fs enc work_dir state clips order false).1 = state := by
        rw [hstate, hcount, ← hcc, ← hstep]
      refine ⟨hst, ?_⟩
      intro e he
      rw [hevs2, hacc, hevs] at he
      simp at he
      rw [he, hst]
  · intro h1 h2 h3
    by_cases hempty : clip_files = []
    · subst hempty
      rfl
    · have hne : clip_files.isEmpty = false := by
        simpa [List.isEmpty_iff] using hempty
      unfold step_upload
      dsimp only
      rw [if_neg (by simp [hne])]
      rw [← h1, ← h2, ← h3]

/-- Witness for C2 (amended): a transcribed checkpoint skips
transcription entirely, and re-running the cut stage over a fully
populated disk returns the identical checkpoint. -/
theorem stage_idempotence_C2_witness :
    step_transcribe fsAll 0 "key" none 5 2 "wd" { step := "transcribed" }
      = (.ok { step := "transcribed" }, [])
    ∧ (step_cut_all fsAll encOk "wd" { step := "cut", clips_cut := 1 }
        [clipA] [clipA] false).1 = { step := "cut", clips_cut := 1 } :=
  ⟨(stage_idempotence_C2 fsAll encOk "u" "f" none "vn" "wd" 0 "key" none 5 2
      [] [] [] none "FID" { step := "transcribed" }).2.1 (by decide),
   ((stage_idempotence_C2 fsAll encOk "u" "f" none "vn" "wd" 0 "key" none 5 2
      [clipA] [clipA] [] none "FID" { step := "cut", clips_cut := 1 }).2.2.1
      (by intro c hc; refine ⟨rfl, rfl, rfl, rfl⟩) rfl (by decide)).1⟩

end VideoClipper
